import Mathlib

/-!
Verification development for a small document ingestion-and-search service
(Go, `main.go`).  The service exposes three HTTP handlers:

* `heartbeatHandler` on the catch-all pattern `"/"`,
* `insertHandler` on `"/insert"` (decode JSON body, normalize the content via
  an external chat-completion service, insert into PostgreSQL, index into the
  inverted-index engine, answer 201),
* `searchHandler` on `"/search"` (reject empty `q`, run a match query).

The inverted-index engine (the `bleve` library in the Go program) and the
external collaborators (PostgreSQL, the OpenAI chat API, Go stdlib JSON
decoding) are outside the repository; they are embedded as follows:

* the engine is modelled from the spec (§4.1): a map from document identifier
  to stored normalized content, with match-query search ranked by a
  term-frequency score, descending, ties by identifier ascending;
* the store is a list of `(id, content)` rows plus a monotone id sequence;
  write failures are injected through boolean oracles;
* the chat service is a function of the call number and the prompt, so that
  distinct calls may answer differently (the real remote service is
  nondeterministic); JSON decoding of its answer is an abstract function;
* Go's JSON decoding of the request body `{"content": string}` is represented
  three-way: `none` = malformed body (decode error), `some none` = well-formed
  JSON without a `content` key (Go leaves the field at its zero value `""`),
  `some (some s)` = well-formed with `content = s`.

Each `insertHandler` run also produces an event trace recording the order of
the normalization call, store write, index write and response, which is how
the temporal ordering claims are stated.
-/

/-- Modelled from the spec: the engine-internal analyzer (bleve's CJK analyzer
in the source) is kept abstract as a tokenization function.  The spec requires
that search "tokenizes the query using the same tokenization rules as
indexing"; `self_mem` states that a token produced from some text is among the
tokens of itself, the analyzer coherence needed for the spec's round-trip
property. -/
structure Tokenizer where
  toks : String → List String
  self_mem : ∀ s t, t ∈ toks s → t ∈ toks t

/-- Modelled from the spec (§4.1, §3): the Inverted Index Engine's state.  It
owns, per document identifier, the stored normalized content; posting lists
are represented implicitly (the postings of a token are exactly the documents
whose stored content contains it, the invariant of §3). -/
structure Engine where
  docs : List (Nat × String)
deriving Repr, DecidableEq

def Engine.empty : Engine := ⟨[]⟩

/-- Modelled from the spec: `Index(documentId, content)` — upsert semantics,
re-indexing an identifier replaces its prior postings (§4.1). -/
def Engine.indexDoc (e : Engine) (id : Nat) (content : String) : Engine :=
  ⟨(id, content) :: e.docs.filter (fun p => p.1 ≠ id)⟩

/-- Modelled from the spec: the relevance score of a stored content against a
query — the sum over the query's tokens of their frequency in the content's
tokens (a term-frequency instance of the spec's "internal detail" scoring,
monotonic in term frequency).  A document matches iff its score is positive,
i.e. iff it shares at least one token with the query (§4.1 match query). -/
def Engine.score (tok : Tokenizer) (q content : String) : Nat :=
  ((tok.toks q).map (fun t => (tok.toks content).count t)).sum

/-- Result ordering of the engine: higher score first, ties broken by
document identifier ascending (§4.1). -/
def hitLe (a b : Nat × Nat) : Bool :=
  decide (b.2 < a.2) || (decide (a.2 = b.2) && decide (a.1 ≤ b.1))

/-- Modelled from the spec: `Search(queryText)` — the matching documents
(positive score) with their scores, ranked by `hitLe`. -/
def Engine.search (tok : Tokenizer) (e : Engine) (q : String) :
    List (Nat × Nat) :=
  (((e.docs.filter (fun p => 0 < Engine.score tok q p.2)).map
      (fun p => (p.1, Engine.score tok q p.2))).mergeSort hitLe)

/-- Engine well-formedness: one stored content per identifier.  `indexDoc`
preserves it and the empty engine satisfies it. -/
def Engine.Wf (e : Engine) : Prop := (e.docs.map Prod.fst).Nodup

/-- Outcome of one `CreateChatCompletion` call: transport/API error, or the
returned message content (a raw string, to be JSON-decoded). -/
inductive ChatOutcome where
  | apiError (msg : String)
  | content (raw : String)
deriving Repr, DecidableEq

/-- The prompt built by `getMorphologicalAnalysis` (main.go). -/
def morphPrompt (text : String) : String :=
  "Please analyze the following text into its morphological components and return them as a JSON array of strings: \"" ++ text ++ "\""

/-- Go's `fmt.Sprintf("%s", tokens)` on a `[]string`: elements separated by
single spaces, inside square brackets. -/
def goFormatStringSlice (ts : List String) : String :=
  "[" ++ String.intercalate " " ts ++ "]"

/-- `getMorphologicalAnalysis` (main.go): build the prompt, call the chat
service, JSON-decode the answer into a string array, and return the Go
`%s`-formatting of that array.  `svc` is the external chat service as a
function of the call number (successive calls may answer differently) and the
prompt; `parse` is Go's `json.Unmarshal` into `[]string`, kept abstract. -/
def getMorphologicalAnalysis (svc : Nat → String → ChatOutcome)
    (parse : String → Except String (List String))
    (callNo : Nat) (text : String) : Except String String :=
  match svc callNo (morphPrompt text) with
  | .apiError e => .error ("OpenAI API request failed: " ++ e)
  | .content raw =>
    match parse raw with
    | .error e => .error ("Failed to parse JSON response: " ++ e)
    | .ok tokens => .ok (goFormatStringSlice tokens)

/-- An HTTP response: status code and body.  For `/search` the JSON encoding
of the result payload is not modelled; the ranked results are returned
alongside (see `searchHandler`). -/
structure HttpResponse where
  status : Nat
  body : String
deriving Repr, DecidableEq

/-- Global mutable state of the process: the PostgreSQL `documents` table with
its id sequence (ids are assigned monotonically by the store), and the index
engine. -/
structure GState where
  seq : Nat
  store : List (Nat × String)
  eng : Engine
deriving Repr, DecidableEq

/-- Observable events of one `insertHandler` run, in execution order. -/
inductive Event where
  | normalizeCall (input : String)
  | normalizeFailed
  | storeInsert (id : Nat) (content : String)
  | storeFailed
  | indexWrite (id : Nat) (content : String)
  | indexFailed
  | respond (status : Nat)
deriving Repr, DecidableEq

/-- `insertHandler` (main.go).  `body` is the outcome of
`json.NewDecoder(r.Body).Decode(&req)` as described in the header comment;
a missing `content` key leaves the field at Go's zero value `""`.
`storeOk` / `indexOk` inject failures of the store insert and of the engine
write (the dynamic error detail of Go's `%v` is elided from the 500 bodies).
Returns the response, the new global state, and the event trace. -/
def insertHandler (svc : Nat → String → ChatOutcome)
    (parse : String → Except String (List String)) (callNo : Nat)
    (method : String) (body : Option (Option String))
    (storeOk indexOk : Bool) (s : GState) :
    HttpResponse × GState × List Event :=
  if method ≠ "POST" then
    (⟨405, "Invalid request method\n"⟩, s, [Event.respond 405])
  else
    match body with
    | none => (⟨400, "Invalid request body\n"⟩, s, [Event.respond 400])
    | some contentField =>
      let content := contentField.getD ""
      match getMorphologicalAnalysis svc parse callNo content with
      | .error e =>
          (⟨500, "Failed to analyze text: " ++ e ++ "\n"⟩, s,
           [Event.normalizeCall content, Event.normalizeFailed,
            Event.respond 500])
      | .ok analysis =>
        if storeOk then
          let id := s.seq + 1
          if indexOk then
            (⟨201, "Document inserted with ID: " ++ toString id⟩,
             ⟨id, s.store ++ [(id, analysis)],
              (s.eng).indexDoc id analysis⟩,
             [Event.normalizeCall content, Event.storeInsert id analysis,
              Event.indexWrite id analysis, Event.respond 201])
          else
            (⟨500, "Failed to index data\n"⟩,
             ⟨id, s.store ++ [(id, analysis)], s.eng⟩,
             [Event.normalizeCall content, Event.storeInsert id analysis,
              Event.indexFailed, Event.respond 500])
        else
          (⟨500, "Failed to insert data\n"⟩, s,
           [Event.normalizeCall content, Event.storeFailed,
            Event.respond 500])

/-- `searchHandler` (main.go).  The global `index` may be nil, hence the
`Option`; `q` is `r.URL.Query().Get("q")`, which yields `""` both for a
missing and for an empty parameter.  Returns the response and, on 200, the
ranked results (their JSON encoding is not modelled). -/
def searchHandler (tok : Tokenizer) (idx : Option Engine) (q : String) :
    HttpResponse × Option (List (Nat × Nat)) :=
  match idx with
  | none => (⟨500, "Index is not initialized\n"⟩, none)
  | some e =>
    if q = "" then (⟨400, "Missing query parameter \x27q\x27\n"⟩, none)
    else (⟨200, ""⟩, some (e.search tok q))

/-- Body written by `heartbeatHandler`: `json.NewEncoder(w).Encode` of
`map[string]string{"status": "ok"}`, which appends a newline. -/
def heartbeatBody : String := "\x7b\"status\":\"ok\"\x7d\n"

/-- `heartbeatHandler` (main.go): always 200 with the liveness body. -/
def heartbeatHandler : HttpResponse := ⟨200, heartbeatBody⟩

/-- The row-replay loop of `createIndexFromDatabase` (main.go): for each
`(id, content)` row, normalize via `getMorphologicalAnalysis` (call numbers
advance per row) and index; the first failure aborts with an error.  `iwOk`
injects engine write failure. -/
def replayRows (svc : Nat → String → ChatOutcome)
    (parse : String → Except String (List String)) (iwOk : Bool) :
    Nat → List (Nat × String) → Engine → Except String Engine
  | _, [], e => .ok e
  | callNo, (id, content) :: rest, e =>
    match getMorphologicalAnalysis svc parse callNo content with
    | .error err => .error ("Failed to analyze text: " ++ err)
    | .ok analysis =>
      if iwOk then
        replayRows svc parse iwOk (callNo + 1) rest (e.indexDoc id analysis)
      else .error "Failed to index data"

/-- `createIndexFromDatabase` (main.go): scan all rows of `documents`
(`scan` is the outcome of `db.Query` / `rows.Scan`, an error or the full
ordered row list) and replay them into the engine. -/
def createIndexFromDatabase (svc : Nat → String → ChatOutcome)
    (parse : String → Except String (List String)) (callNo : Nat)
    (scan : Except String (List (Nat × String))) (iwOk : Bool)
    (e : Engine) : Except String Engine :=
  match scan with
  | .error err => .error ("Failed to query documents: " ++ err)
  | .ok rows => replayRows svc parse iwOk callNo rows e

/-- The index-setup portion of `main` (main.go): if the on-disk index exists,
open it (`onDisk` is the outcome of `bleve.Open`); otherwise create a fresh
empty index and replay the database into it.  An `Except.error` result models
`log.Fatalf`: the process exits before `http.ListenAndServe`, so no search
traffic is ever served from a partially replayed index. -/
def startup (svc : Nat → String → ChatOutcome)
    (parse : String → Except String (List String)) (callNo : Nat)
    (indexExists : Bool) (onDisk : Except String Engine)
    (scan : Except String (List (Nat × String))) (iwOk : Bool) :
    Except String Engine :=
  if indexExists then onDisk
  else createIndexFromDatabase svc parse callNo scan iwOk Engine.empty

/-- An inbound HTTP request as the handlers observe it. -/
structure Request where
  method : String
  path : String
  q : String
  body : Option (Option String)

/-- The `http.ServeMux` dispatch set up in `main` (main.go): the exact
patterns `"/search"` and `"/insert"`, and the subtree pattern `"/"` which
matches every other (canonical) path; with `"/"` registered the mux never
falls through to its 404 handler. -/
def serve (tok : Tokenizer) (svc : Nat → String → ChatOutcome)
    (parse : String → Except String (List String)) (callNo : Nat)
    (storeOk indexOk : Bool) (idx : Option Engine) (s : GState)
    (r : Request) : HttpResponse :=
  if r.path = "/search" then (searchHandler tok idx r.q).1
  else if r.path = "/insert" then
    (insertHandler svc parse callNo r.method r.body storeOk indexOk s).1
  else heartbeatHandler

/-- A token of some indexed content is found by searching for itself:
analyzing the single token yields it back, and it occurs in the content. -/
theorem score_self_pos (tok : Tokenizer) (t c : String)
    (h : t ∈ tok.toks c) : 0 < Engine.score tok t c := by
  have ht : t ∈ tok.toks t := tok.self_mem c t h
  have hcount : 0 < (tok.toks c).count t := List.count_pos_iff.mpr h
  have hmem : (tok.toks c).count t ∈
      (tok.toks t).map (fun u => (tok.toks c).count u) :=
    List.mem_map.mpr ⟨t, ht, rfl⟩
  have hle := List.single_le_sum (l := (tok.toks t).map
      (fun u => (tok.toks c).count u)) (fun x _ => Nat.zero_le x) _ hmem
  exact lt_of_lt_of_le hcount hle

/-- A stored document with positive score against the query appears, with its
score, in the search results. -/
theorem mem_search_of_score_pos (tok : Tokenizer) (e : Engine)
    (q : String) (id : Nat) (c : String)
    (hd : (id, c) ∈ e.docs) (hs : 0 < Engine.score tok q c) :
    (id, Engine.score tok q c) ∈ e.search tok q := by
  unfold Engine.search
  rw [List.mem_mergeSort]
  exact List.mem_map.mpr ⟨(id, c), List.mem_filter.mpr ⟨hd, by simpa using hs⟩, rfl⟩

/-- Concrete analyzer for witnesses: the whole (nonempty) string is a single
token. -/
def tok0toks : String → List String := fun s => if s = "" then [] else [s]

theorem tok0_self_mem : ∀ s t, t ∈ tok0toks s → t ∈ tok0toks t := by
  intro s t h
  by_cases hs : s = ""
  · simp [tok0toks, hs] at h
  · simp [tok0toks, hs] at h
    subst h
    simp [tok0toks, hs]

def tok0 : Tokenizer := ⟨tok0toks, tok0_self_mem⟩

/-- Concrete chat service for witnesses: always answers the raw content
`tokA`. -/
def svc0 : Nat → String → ChatOutcome := fun _ _ => ChatOutcome.content "tokA"

/-- Concrete JSON decode for witnesses: the raw content is a one-element
array. -/
def parse0 : String → Except String (List String) := fun r => .ok [r]

/-- Fresh process state for witnesses: empty store, empty engine. -/
def gs0 : GState := ⟨0, [], Engine.empty⟩

/-- C1: a document whose ingestion got a 201 is searchable — searching for
any token of its normalized (indexed) content returns its identifier (the one
assigned by the store, `s.seq + 1`, the id reported in the 201 body) in the
result set, with a positive score. -/
theorem insert_search_roundtrip (tok : Tokenizer)
    (svc : Nat → String → ChatOutcome)
    (parse : String → Except String (List String)) (n : Nat)
    (cf : Option String) (storeOk indexOk : Bool) (s : GState)
    (t analysis : String)
    (hnorm : getMorphologicalAnalysis svc parse n (cf.getD "") =
      Except.ok analysis)
    (h201 : (insertHandler svc parse n "POST" (some cf) storeOk indexOk
      s).1.status = 201)
    (ht : t ∈ tok.toks analysis) :
    ∃ sc, 0 < sc ∧ (s.seq + 1, sc) ∈
      Engine.search tok
        (insertHandler svc parse n "POST" (some cf) storeOk indexOk s).2.1.eng
        t := by
  cases storeOk with
  | false => simp [insertHandler, hnorm] at h201
  | true =>
    cases indexOk with
    | false => simp [insertHandler, hnorm] at h201
    | true =>
      refine ⟨Engine.score tok t analysis, score_self_pos tok t analysis ht, ?_⟩
      have heng : (insertHandler svc parse n "POST" (some cf) true true
          s).2.1.eng = (s.eng).indexDoc (s.seq + 1) analysis := by
        simp [insertHandler, hnorm]
      rw [heng]
      exact mem_search_of_score_pos tok _ t (s.seq + 1) analysis
        (by simp [Engine.indexDoc]) (score_self_pos tok t analysis ht)

/-- C1 witness: inserting with the concrete oracles indexes the normalized
content `[tokA]` under id 1, and searching for that token finds id 1. -/
theorem insert_search_roundtrip_witness :
    ∃ sc, 0 < sc ∧ (1, sc) ∈
      Engine.search tok0
        (insertHandler svc0 parse0 0 "POST" (some (some "x")) true true
          gs0).2.1.eng
        "[tokA]" :=
  insert_search_roundtrip tok0 svc0 parse0 0 (some "x") true true gs0
    "[tokA]" "[tokA]" (by rfl) (by rfl)
    (by simp [tok0, tok0toks])

/-- C3: whenever `insertHandler` answers 201, its event trace is exactly
normalization call, then store insert (which fixes the assigned identifier
`s.seq + 1`), then the index write for that same identifier, then the 201
response; and the final state holds the document both in the store and in the
engine.  A success response is therefore never sent for a document that is
not both durable and indexed. -/
theorem insert_ordering (svc : Nat → String → ChatOutcome)
    (parse : String → Except String (List String)) (n : Nat)
    (method : String) (body : Option (Option String))
    (storeOk indexOk : Bool) (s : GState)
    (h201 : (insertHandler svc parse n method body storeOk indexOk
      s).1.status = 201) :
    ∃ content analysis,
      getMorphologicalAnalysis svc parse n content = Except.ok analysis ∧
      (insertHandler svc parse n method body storeOk indexOk s).2.2 =
        [Event.normalizeCall content, Event.storeInsert (s.seq + 1) analysis,
         Event.indexWrite (s.seq + 1) analysis, Event.respond 201] ∧
      (s.seq + 1, analysis) ∈
        (insertHandler svc parse n method body storeOk indexOk s).2.1.store ∧
      (s.seq + 1, analysis) ∈
        ((insertHandler svc parse n method body storeOk indexOk
          s).2.1.eng).docs := by
  by_cases hm : method = "POST"
  · subst hm
    cases body with
    | none => simp [insertHandler] at h201
    | some cf =>
      cases hopt : getMorphologicalAnalysis svc parse n (cf.getD "") with
      | error e => simp [insertHandler, hopt] at h201
      | ok analysis =>
        cases storeOk with
        | false => simp [insertHandler, hopt] at h201
        | true =>
          cases indexOk with
          | false => simp [insertHandler, hopt] at h201
          | true =>
            refine ⟨cf.getD "", analysis, hopt, ?_, ?_, ?_⟩ <;>
              simp [insertHandler, hopt, Engine.indexDoc]
  · simp [insertHandler, hm] at h201

/-- C3 witness: the concrete 201 ingestion produces exactly the ordered
trace and leaves the document in both the store and the engine. -/
theorem insert_ordering_witness :
    ∃ content analysis,
      getMorphologicalAnalysis svc0 parse0 0 content = Except.ok analysis ∧
      (insertHandler svc0 parse0 0 "POST" (some (some "x")) true true
        gs0).2.2 =
        [Event.normalizeCall content, Event.storeInsert 1 analysis,
         Event.indexWrite 1 analysis, Event.respond 201] ∧
      (1, analysis) ∈
        (insertHandler svc0 parse0 0 "POST" (some (some "x")) true true
          gs0).2.1.store ∧
      (1, analysis) ∈
        ((insertHandler svc0 parse0 0 "POST" (some (some "x")) true true
          gs0).2.1.eng).docs :=
  insert_ordering svc0 parse0 0 "POST" (some (some "x")) true true gs0
    (by rfl)

/-- C4: in `insertHandler` the normalization output (the result of
`getMorphologicalAnalysis`), not the raw request content, is both the value
inserted into the store and the value indexed; and if normalization fails the
handler answers 500 with the state unchanged — no store or index write
occurred (fail-closed ingestion). -/
theorem insert_normalized_value_used (svc : Nat → String → ChatOutcome)
    (parse : String → Except String (List String)) (n : Nat)
    (cf : Option String) (storeOk indexOk : Bool) (s : GState) :
    (∀ e, getMorphologicalAnalysis svc parse n (cf.getD "") =
        Except.error e →
      insertHandler svc parse n "POST" (some cf) storeOk indexOk s =
        (⟨500, "Failed to analyze text: " ++ e ++ "\n"⟩, s,
         [Event.normalizeCall (cf.getD ""), Event.normalizeFailed,
          Event.respond 500])) ∧
    (∀ a, getMorphologicalAnalysis svc parse n (cf.getD "") = Except.ok a →
      (insertHandler svc parse n "POST" (some cf) storeOk indexOk
        s).1.status = 201 →
      (insertHandler svc parse n "POST" (some cf) storeOk indexOk
        s).2.1.store = s.store ++ [(s.seq + 1, a)] ∧
      (insertHandler svc parse n "POST" (some cf) storeOk indexOk
        s).2.1.eng = (s.eng).indexDoc (s.seq + 1) a) := by
  constructor
  · intro e he
    simp [insertHandler, he]
  · intro a ha h201
    cases storeOk with
    | false => simp [insertHandler, ha] at h201
    | true =>
      cases indexOk with
      | false => simp [insertHandler, ha] at h201
      | true => simp [insertHandler, ha]

/-- C4 witness: with a failing chat service the handler leaves the state
untouched, and with a succeeding one the 201 run stores and indexes the
normalized output. -/
theorem insert_normalized_value_used_witness :
    insertHandler (fun _ _ => ChatOutcome.apiError "down") parse0 0 "POST"
        (some (some "x")) true true gs0 =
      (⟨500, "Failed to analyze text: " ++
          ("OpenAI API request failed: " ++ "down") ++ "\n"⟩, gs0,
       [Event.normalizeCall "x", Event.normalizeFailed, Event.respond 500]) ∧
    ((insertHandler svc0 parse0 0 "POST" (some (some "x")) true true
        gs0).2.1.store = gs0.store ++ [(1, "[tokA]")] ∧
      (insertHandler svc0 parse0 0 "POST" (some (some "x")) true true
        gs0).2.1.eng = (gs0.eng).indexDoc 1 "[tokA]") :=
  ⟨(insert_normalized_value_used (fun _ _ => ChatOutcome.apiError "down")
      parse0 0 (some "x") true true gs0).1 _ (by rfl),
   (insert_normalized_value_used svc0 parse0 0 (some "x") true true
      gs0).2 "[tokA]" (by rfl) (by rfl)⟩

/-- C5: if the store insert succeeds but the index write fails, the handler
answers 500 (never 201), the committed store row `(s.seq + 1, analysis)` is
kept (not undone), and the engine is unchanged — durable but unsearchable. -/
theorem insert_index_write_failure (svc : Nat → String → ChatOutcome)
    (parse : String → Except String (List String)) (n : Nat)
    (cf : Option String) (s : GState) (a : String)
    (hnorm : getMorphologicalAnalysis svc parse n (cf.getD "") =
      Except.ok a) :
    insertHandler svc parse n "POST" (some cf) true false s =
      (⟨500, "Failed to index data\n"⟩,
       ⟨s.seq + 1, s.store ++ [(s.seq + 1, a)], s.eng⟩,
       [Event.normalizeCall (cf.getD ""), Event.storeInsert (s.seq + 1) a,
        Event.indexFailed, Event.respond 500]) := by
  simp [insertHandler, hnorm]

/-- C5 witness: the concrete store-ok/index-fail run answers 500 with the
store row kept and the engine untouched. -/
theorem insert_index_write_failure_witness :
    insertHandler svc0 parse0 0 "POST" (some (some "x")) true false gs0 =
      (⟨500, "Failed to index data\n"⟩,
       ⟨1, gs0.store ++ [(1, "[tokA]")], gs0.eng⟩,
       [Event.normalizeCall "x", Event.storeInsert 1 "[tokA]",
        Event.indexFailed, Event.respond 500]) :=
  insert_index_write_failure svc0 parse0 0 (some "x") gs0 "[tokA]" (by rfl)

/-- C6 counterexample: a well-formed JSON body without a `content` key
(`some none` — Go decodes it without error, leaving `content = ""`) is NOT
rejected with 400; with succeeding oracles the handler proceeds all the way
to a 201. -/
theorem insert_missing_content_not_rejected :
    (insertHandler svc0 parse0 0 "POST" (some none) true true
      gs0).1.status = 201 ∧
    ¬ (insertHandler svc0 parse0 0 "POST" (some none) true true
      gs0).1.status = 400 := by
  constructor
  · rfl
  · decide

/-- C6 (amended): `POST /insert` answers 400 exactly when the body fails to
decode (malformed JSON, including an empty body); a well-formed body without
a `content` key decodes to the zero value `""` and the handler proceeds to
normalization (and then store and index) with that content. -/
theorem insert_body_validation (svc : Nat → String → ChatOutcome)
    (parse : String → Except String (List String)) (n : Nat)
    (method : String) (body : Option (Option String))
    (storeOk indexOk : Bool) (s : GState) :
    ((insertHandler svc parse n method body storeOk indexOk s).1.status = 400
      ↔ method = "POST" ∧ body = none) ∧
    (∀ cf, method = "POST" → body = some cf →
      Event.normalizeCall (cf.getD "") ∈
        (insertHandler svc parse n method body storeOk indexOk s).2.2) := by
  constructor
  · constructor
    · intro h400
      by_cases hm : method = "POST"
      · subst hm
        cases body with
        | none => exact ⟨rfl, rfl⟩
        | some cf =>
          cases hopt : getMorphologicalAnalysis svc parse n (cf.getD "") with
          | error e => simp [insertHandler, hopt] at h400
          | ok a =>
            cases storeOk with
            | false => simp [insertHandler, hopt] at h400
            | true =>
              cases indexOk <;> simp [insertHandler, hopt] at h400
      · simp [insertHandler, hm] at h400
    · rintro ⟨hm, hb⟩
      subst hm; subst hb
      rfl
  · intro cf hm hb
    subst hm; subst hb
    cases hopt : getMorphologicalAnalysis svc parse n (cf.getD "") with
    | error e => simp [insertHandler, hopt]
    | ok a => cases storeOk <;> cases indexOk <;> simp [insertHandler, hopt]

/-- C6 amended-claim witness: a malformed body gives 400, and a body without
`content` proceeds to normalization of `""`. -/
theorem insert_body_validation_witness :
    ((insertHandler svc0 parse0 0 "POST" none true true gs0).1.status = 400
      ↔ "POST" = "POST" ∧ (none : Option (Option String)) = none) ∧
    Event.normalizeCall "" ∈
      (insertHandler svc0 parse0 0 "POST" (some none) true true gs0).2.2 :=
  ⟨(insert_body_validation svc0 parse0 0 "POST" none true true gs0).1,
   (insert_body_validation svc0 parse0 0 "POST" (some none) true true
      gs0).2 none rfl rfl⟩

/-- C7: with the index initialized (always the case once `main` reaches
`ListenAndServe`), `GET /search` with a missing or empty `q` (Go's
`Query().Get` yields `""` in both cases) answers 400 and produces no result
payload — an empty query is never a successful empty result. -/
theorem search_empty_query_rejected (tok : Tokenizer) (e : Engine) :
    (searchHandler tok (some e) "").1.status = 400 ∧
    (searchHandler tok (some e) "").2 = none := by
  exact ⟨rfl, rfl⟩

/-- Every `insertHandler` response status is 405, 400, 500 or 201. -/
theorem insertHandler_status_mem (svc : Nat → String → ChatOutcome)
    (parse : String → Except String (List String)) (n : Nat)
    (method : String) (body : Option (Option String))
    (storeOk indexOk : Bool) (s : GState) :
    (insertHandler svc parse n method body storeOk indexOk s).1.status ∈
      ([405, 400, 500, 201] : List Nat) := by
  by_cases hm : method = "POST"
  · subst hm
    cases body with
    | none => simp [insertHandler]
    | some cf =>
      cases hopt : getMorphologicalAnalysis svc parse n (cf.getD "") with
      | error e => simp [insertHandler, hopt]
      | ok a => cases storeOk <;> cases indexOk <;> simp [insertHandler, hopt]
  · simp [insertHandler, hm]

/-- Every `searchHandler` response status is 500, 400 or 200. -/
theorem searchHandler_status_mem (tok : Tokenizer) (idx : Option Engine)
    (q : String) :
    (searchHandler tok idx q).1.status ∈ ([500, 400, 200] : List Nat) := by
  cases idx with
  | none => simp [searchHandler]
  | some e =>
    by_cases hq : q = "" <;> simp [searchHandler, hq]

/-- C10: the mux registers the heartbeat on the subtree pattern `"/"`, so a
request whose path is neither `/search` nor `/insert` (e.g. `/foo`) gets the
200 liveness response, and no request path ever yields a 404. -/
theorem catch_all_heartbeat (tok : Tokenizer)
    (svc : Nat → String → ChatOutcome)
    (parse : String → Except String (List String)) (n : Nat)
    (storeOk indexOk : Bool) (idx : Option Engine) (s : GState)
    (r : Request) :
    (r.path ≠ "/search" → r.path ≠ "/insert" →
      serve tok svc parse n storeOk indexOk idx s r = ⟨200, heartbeatBody⟩) ∧
    (serve tok svc parse n storeOk indexOk idx s r).status ≠ 404 := by
  constructor
  · intro h1 h2
    simp [serve, h1, h2, heartbeatHandler]
  · by_cases h1 : r.path = "/search"
    · have := searchHandler_status_mem tok idx r.q
      simp only [serve, h1, if_pos] at this ⊢
      simp only [List.mem_cons, List.mem_singleton] at this
      rcases this with h | h | h | h
      · simp [h]
      · simp [h]
      · simp [h]
      · simp at h
    · by_cases h2 : r.path = "/insert"
      · have := insertHandler_status_mem svc parse n r.method r.body
          storeOk indexOk s
        simp only [serve, h1, h2, if_neg, if_pos] at this ⊢
        simp only [List.mem_cons, List.mem_singleton] at this
        rcases this with h | h | h | h | h
        · simp [h]
        · simp [h]
        · simp [h]
        · simp [h]
        · simp at h
      · simp [serve, h1, h2, heartbeatHandler, heartbeatBody]

/-- C10 witness: the unknown path `/foo` gets the heartbeat 200 and is not a
404. -/
theorem catch_all_heartbeat_witness :
    serve tok0 svc0 parse0 0 true true (some Engine.empty) gs0
        ⟨"GET", "/foo", "", none⟩ = ⟨200, heartbeatBody⟩ ∧
    (serve tok0 svc0 parse0 0 true true (some Engine.empty) gs0
        ⟨"GET", "/foo", "", none⟩).status ≠ 404 :=
  ⟨(catch_all_heartbeat tok0 svc0 parse0 0 true true (some Engine.empty) gs0
      ⟨"GET", "/foo", "", none⟩).1 (by decide) (by decide),
   (catch_all_heartbeat tok0 svc0 parse0 0 true true (some Engine.empty) gs0
      ⟨"GET", "/foo", "", none⟩).2⟩

/-- The result order `hitLe` is transitive. -/
theorem hitLe_trans (a b c : Nat × Nat) (h1 : hitLe a b = true)
    (h2 : hitLe b c = true) : hitLe a c = true := by
  simp only [hitLe, Bool.or_eq_true, Bool.and_eq_true, decide_eq_true_eq]
    at h1 h2 ⊢
  omega

/-- The result order `hitLe` is total. -/
theorem hitLe_total (a b : Nat × Nat) : (hitLe a b || hitLe b a) = true := by
  simp only [hitLe, Bool.or_eq_true, Bool.and_eq_true, decide_eq_true_eq]
  omega

/-- Under well-formedness, the identifiers in a search result list are
pairwise distinct. -/
theorem search_ids_nodup (tok : Tokenizer) (e : Engine) (q : String)
    (hwf : e.Wf) : ((e.search tok q).map Prod.fst).Nodup := by
  have hfil : ((e.docs.filter
      (fun p => 0 < Engine.score tok q p.2)).map Prod.fst).Nodup :=
    (List.Sublist.map Prod.fst (List.filter_sublist e.docs)).nodup hwf
  have heq : ((e.docs.filter (fun p => 0 < Engine.score tok q p.2)).map
        (fun p => (p.1, Engine.score tok q p.2))).map Prod.fst =
      (e.docs.filter (fun p => 0 < Engine.score tok q p.2)).map Prod.fst := by
    simp [List.map_map, Function.comp]
  have hperm : ((e.search tok q).map Prod.fst).Perm
      (((e.docs.filter (fun p => 0 < Engine.score tok q p.2)).map
        (fun p => (p.1, Engine.score tok q p.2))).map Prod.fst) :=
    (List.mergeSort_perm _ hitLe).map Prod.fst
  exact hperm.nodup_iff.mpr (heq ▸ hfil)

/-- C8: for a well-formed engine state (one stored content per identifier,
which ingestion maintains), the search results are strictly ordered by
descending relevance score, with ties broken by document identifier
ascending. -/
theorem search_results_ranked (tok : Tokenizer) (e : Engine) (q : String)
    (hwf : e.Wf) :
    (e.search tok q).Pairwise
      (fun a b => b.2 < a.2 ∨ (a.2 = b.2 ∧ a.1 < b.1)) := by
  have hsorted : (e.search tok q).Pairwise (fun a b => hitLe a b = true) := by
    unfold Engine.search
    exact List.sorted_mergeSort hitLe_trans hitLe_total _
  have hids : (e.search tok q).Pairwise (fun a b => a.1 ≠ b.1) :=
    List.pairwise_map.mp (search_ids_nodup tok e q hwf)
  refine (hsorted.and hids).imp ?_
  intro a b ⟨h1, h2⟩
  simp only [hitLe, Bool.or_eq_true, Bool.and_eq_true, decide_eq_true_eq]
    at h1
  rcases h1 with h | ⟨hs, hi⟩
  · exact Or.inl h
  · exact Or.inr ⟨hs.symm ▸ rfl, lt_of_le_of_ne hi h2⟩

/-- C8 witness: a concrete two-document well-formed engine, searched, yields
a strictly ranked result list. -/
theorem search_results_ranked_witness :
    (Engine.mk [(2, "a"), (1, "a")]).Wf ∧
    ((Engine.mk [(2, "a"), (1, "a")]).search tok0 "a").Pairwise
      (fun a b => b.2 < a.2 ∨ (a.2 = b.2 ∧ a.1 < b.1)) :=
  ⟨by unfold Engine.Wf; decide,
   search_results_ranked tok0 (Engine.mk [(2, "a"), (1, "a")]) "a"
     (by unfold Engine.Wf; decide)⟩

/-- Chat service for the C9 counterexample: its answer depends on the call
number, as a remote nondeterministic service's may. -/
def svcC9 : Nat → String → ChatOutcome :=
  fun n _ => ChatOutcome.content (if n = 0 then "ra" else "rb")

/-- C9 counterexample: `getMorphologicalAnalysis` is not a pure function of
its input text — two calls with the same input `"x"` (call numbers 0 and 1)
yield different normalized outputs when the remote service answers
differently. -/
theorem normalizer_not_pure_across_calls :
    getMorphologicalAnalysis svcC9 parse0 0 "x" ≠
      getMorphologicalAnalysis svcC9 parse0 1 "x" := by
  intro h
  have h1 : getMorphologicalAnalysis svcC9 parse0 0 "x" =
      Except.ok "[ra]" := rfl
  have h2 : getMorphologicalAnalysis svcC9 parse0 1 "x" =
      Except.ok "[rb]" := rfl
  rw [h1, h2] at h
  exact absurd (Except.ok.inj h) (by decide)

/-- C9 (amended): `getMorphologicalAnalysis` keeps no state of its own — its
output is determined by the input text together with the external chat
service's answer to the one prompt it builds; two calls with the same input
for which the service answers identically yield the same output. -/
theorem normalizer_deterministic_given_service
    (svc : Nat → String → ChatOutcome)
    (parse : String → Except String (List String)) (m n : Nat)
    (text : String)
    (h : svc m (morphPrompt text) = svc n (morphPrompt text)) :
    getMorphologicalAnalysis svc parse m text =
      getMorphologicalAnalysis svc parse n text := by
  unfold getMorphologicalAnalysis
  rw [h]

/-- C9 amended-claim witness: with a service answering identically on two
calls, the two normalizations of `"x"` agree. -/
theorem normalizer_deterministic_given_service_witness :
    getMorphologicalAnalysis svc0 parse0 0 "x" =
      getMorphologicalAnalysis svc0 parse0 1 "x" :=
  normalizer_deterministic_given_service svc0 parse0 0 1 "x" rfl

/-- Replay preserves already-indexed documents whose identifier does not
occur among the remaining rows. -/
theorem replayRows_preserve (svc : Nat → String → ChatOutcome)
    (parse : String → Except String (List String)) (iwOk : Bool) :
    ∀ (rows : List (Nat × String)) (n : Nat) (e endE : Engine)
      (p : Nat × String),
      replayRows svc parse iwOk n rows e = Except.ok endE →
      p ∈ e.docs → p.1 ∉ rows.map Prod.fst → p ∈ endE.docs := by
  intro rows
  induction rows with
  | nil =>
    intro n e endE p h hp _
    simp only [replayRows, Except.ok.injEq] at h
    exact h ▸ hp
  | cons hd tl ih =>
    intro n e endE p h hp hnot
    obtain ⟨id, c⟩ := hd
    simp only [List.map_cons, List.mem_cons, not_or] at hnot
    obtain ⟨hne, hnot'⟩ := hnot
    cases hopt : getMorphologicalAnalysis svc parse n c with
    | error err => simp [replayRows, hopt] at h
    | ok a =>
      cases iwOk with
      | false => simp [replayRows, hopt] at h
      | true =>
        simp only [replayRows, hopt, if_true] at h
        refine ih (n + 1) (e.indexDoc id a) endE p h ?_ hnot'
        simp only [Engine.indexDoc, List.mem_cons]
        exact Or.inr (List.mem_filter.mpr ⟨hp, by simpa using hne⟩)

/-- If replay succeeds over rows with pairwise distinct identifiers, every
row was normalized by some `getMorphologicalAnalysis` call and its normalized
content is stored in the final engine under the row's identifier. -/
theorem replayRows_complete (svc : Nat → String → ChatOutcome)
    (parse : String → Except String (List String)) (iwOk : Bool) :
    ∀ (rows : List (Nat × String)) (n : Nat) (e endE : Engine),
      (rows.map Prod.fst).Nodup →
      replayRows svc parse iwOk n rows e = Except.ok endE →
      ∀ r ∈ rows, ∃ m a,
        getMorphologicalAnalysis svc parse m r.2 = Except.ok a ∧
        (r.1, a) ∈ endE.docs := by
  intro rows
  induction rows with
  | nil => intro n e endE _ _ r hr; simp at hr
  | cons hd tl ih =>
    intro n e endE hnd h r hr
    obtain ⟨id, c⟩ := hd
    cases hopt : getMorphologicalAnalysis svc parse n c with
    | error err => simp [replayRows, hopt] at h
    | ok a =>
      cases iwOk with
      | false => simp [replayRows, hopt] at h
      | true =>
        simp only [replayRows, hopt, if_true] at h
        have hnd' : (id :: tl.map Prod.fst).Nodup := by
          simpa using hnd
        obtain ⟨hid, htl⟩ := List.nodup_cons.mp hnd'
        rcases List.mem_cons.mp hr with hr | hr
        · subst hr
          refine ⟨n, a, hopt, ?_⟩
          refine replayRows_preserve svc parse true tl (n + 1)
            ((e.indexDoc id a)) endE (id, a) h ?_ hid
          simp [Engine.indexDoc]
        · exact ih (n + 1) (e.indexDoc id a) endE htl h r hr

/-- With a failing index writer, replay of a nonempty row list always aborts
with an error. -/
theorem replayRows_index_fail (svc : Nat → String → ChatOutcome)
    (parse : String → Except String (List String))
    (rows : List (Nat × String)) (n : Nat) (e : Engine)
    (hne : rows ≠ []) :
    ∃ msg, replayRows svc parse false n rows e = Except.error msg := by
  cases rows with
  | nil => exact absurd rfl hne
  | cons hd tl =>
    obtain ⟨id, c⟩ := hd
    cases hopt : getMorphologicalAnalysis svc parse n c with
    | error err =>
      exact ⟨"Failed to analyze text: " ++ err, by simp [replayRows, hopt]⟩
    | ok a => exact ⟨"Failed to index data", by simp [replayRows, hopt]⟩

/-- C2: at process start with no on-disk index, the engine is created empty
and the whole store is replayed through the normalizer into it before any
serving: (1) startup is exactly the replay of the scan into the empty
engine; (2) a store read error is fatal (`Except.error` models `log.Fatalf`,
reached before `ListenAndServe`); (3) an index write failure during a
nonempty replay is fatal; (4) startup succeeds only if every scanned row was
normalized and indexed — each row's normalized content sits in the served
engine under the row's identifier. -/
theorem startup_bootstrap_replay (svc : Nat → String → ChatOutcome)
    (parse : String → Except String (List String)) (n : Nat)
    (onDisk : Except String Engine)
    (scan : Except String (List (Nat × String))) (iwOk : Bool) :
    (startup svc parse n false onDisk scan iwOk =
      createIndexFromDatabase svc parse n scan iwOk Engine.empty) ∧
    (∀ err, scan = Except.error err →
      startup svc parse n false onDisk scan iwOk =
        Except.error ("Failed to query documents: " ++ err)) ∧
    (∀ rows, scan = Except.ok rows → rows ≠ [] → iwOk = false →
      ∃ msg, startup svc parse n false onDisk scan iwOk =
        Except.error msg) ∧
    (∀ rows e, scan = Except.ok rows → (rows.map Prod.fst).Nodup →
      startup svc parse n false onDisk scan iwOk = Except.ok e →
      ∀ r ∈ rows, ∃ m a,
        getMorphologicalAnalysis svc parse m r.2 = Except.ok a ∧
        (r.1, a) ∈ e.docs) := by
  refine ⟨rfl, ?_, ?_, ?_⟩
  · intro err herr
    simp [startup, createIndexFromDatabase, herr]
  · intro rows hrows hne hiw
    subst hiw
    obtain ⟨msg, hmsg⟩ :=
      replayRows_index_fail svc parse rows n Engine.empty hne
    exact ⟨msg, by simp [startup, createIndexFromDatabase, hrows, hmsg]⟩
  · intro rows e hrows hnd hok
    simp only [startup, if_neg, Bool.false_eq_true, not_false_iff,
      createIndexFromDatabase, hrows] at hok
    exact replayRows_complete svc parse iwOk rows n Engine.empty e hnd hok

/-- C2 witness: a store with the single row `(5, "c")` and no on-disk index
replays through the normalizer; row 5's normalized content is in the served
engine. -/
theorem startup_bootstrap_replay_witness :
    ∃ m a, getMorphologicalAnalysis svc0 parse0 m "c" = Except.ok a ∧
      ((5 : Nat), a) ∈ ((Engine.empty).indexDoc 5 "[tokA]").docs :=
  (startup_bootstrap_replay svc0 parse0 0 (Except.ok Engine.empty)
      (Except.ok [(5, "c")]) true).2.2.2 [(5, "c")]
    ((Engine.empty).indexDoc 5 "[tokA]") rfl (by decide) (by rfl)
    (5, "c") (by decide)
